import Mathlib

/-!
Verification of the statocyst firewall rule management subsystem.

The subsystem (src/nftables/command.ts, src/nftables/types.ts, src/command.ts)
is a typed client over the `nft` command line tool.  Rules and ruleset entries
are JavaScript runtime values obtained from `JSON.parse` of the tool's JSON
output, so the embedding models them as JSON values in which object fields
keep their insertion order (JavaScript objects preserve key insertion order,
and `JSON.stringify` serializes keys in that order).

`src/nftables/command.ts` compares the counter-filtered expression arrays with
`JSON.stringify(expr1) === JSON.stringify(expr2)`.  Two JSON values (without
duplicate keys, as produced by the JavaScript runtime) serialize to the same
text iff they are equal as key-order-preserving JSON trees, so that comparison
is embedded as decidable equality on the `Json` type below.
-/

namespace Statocyst

mutual

/-- JSON runtime values with insertion-ordered object fields, as a mutual
inductive (`JsonList` for arrays, `JsonFields` for the ordered key/value
fields of an object). -/
inductive Json where
  | str (s : String)
  | num (n : Int)
  | bool (b : Bool)
  | null
  | arr (elems : JsonList)
  | obj (fields : JsonFields)
deriving DecidableEq, Repr

inductive JsonList where
  | nil
  | cons (hd : Json) (tl : JsonList)
deriving DecidableEq, Repr

inductive JsonFields where
  | nil
  | cons (key : String) (val : Json) (tl : JsonFields)
deriving DecidableEq, Repr

end

/-- Build a `JsonList` from a Lean list literal. -/
def JsonList.ofList : List Json → JsonList
  | [] => .nil
  | x :: xs => .cons x (ofList xs)

/-- Build ordered object fields from a Lean list literal. -/
def JsonFields.ofList : List (String × Json) → JsonFields
  | [] => .nil
  | (k, v) :: xs => .cons k v (ofList xs)

/-- First value stored under key `k`, in insertion order.  JavaScript objects
have no duplicate keys, so this is the value of property `k`. -/
def JsonFields.lookup : JsonFields → String → Option Json
  | .nil, _ => none
  | .cons key v tl, k => if key = k then some v else lookup tl k

/-- The JavaScript `in` operator on an object's own properties: `k in e`. -/
def Json.hasKey : Json → String → Bool
  | .obj fields, k => go fields k
  | _, _ => false
where
  go : JsonFields → String → Bool
  | .nil, _ => false
  | .cons key _ tl, k => key = k || go tl k

/-- Property access `e[k]`; `none` models JavaScript `undefined`. -/
def Json.lookup : Json → String → Option Json
  | .obj fields, k => fields.lookup k
  | _, _ => none

/-- `Array.isArray(e)`. -/
def Json.isArr : Json → Bool
  | .arr _ => true
  | _ => false

/-- The JavaScript test `typeof e === "object" && e !== null`. -/
def Json.isObjectLike : Json → Bool
  | .obj _ => true
  | .arr _ => true
  | _ => false

theorem Json.hasKey_go_eq_isSome : ∀ (fields : JsonFields) (k : String),
    Json.hasKey.go fields k = (fields.lookup k).isSome
  | .nil, _ => rfl
  | .cons key v tl, k => by
    simp only [Json.hasKey.go, JsonFields.lookup]
    by_cases h : key = k
    · simp [h]
    · simp [h, Json.hasKey_go_eq_isSome tl k]

theorem Json.hasKey_eq_lookup_isSome (e : Json) (k : String) :
    e.hasKey k = (e.lookup k).isSome := by
  cases e <;> simp [Json.hasKey, Json.lookup, Json.hasKey_go_eq_isSome]

/-- Modelled from the spec: the Result values of the external
`@joyautomation/dark-matter` collaborator — "runs a program with
arguments/environment, returns `{ok, output}` or `{fail, reason}`". -/
inductive Result (α : Type) where
  | success (output : α)
  | fail (error : String)
deriving DecidableEq, Repr

/-- Modelled from the spec: the collaborator's success-tag test `isSuccess`. -/
def isSuccess {α : Type} : Result α → Bool
  | .success _ => true
  | .fail _ => false

theorem isSuccess_eq_true_iff {α : Type} (r : Result α) :
    isSuccess r = true ↔ ∃ out, r = .success out := by
  cases r <;> simp [isSuccess]

/-- The `NftRule` interface of src/nftables/types.ts: family, table, chain,
handle, an ordered expression array, and optional comment and index.  The
expressions are the raw JSON values parsed from the tool's output. -/
structure NftRule where
  family : String
  table : String
  chain : String
  handle : Int
  expr : List Json
  comment : Option String
  index : Option Int
deriving DecidableEq, Repr

/-- The local `filterCounters` of `areRulesEqual`:
`expr.filter((e) => !("counter" in e))`. -/
def filterCounters (expr : List Json) : List Json :=
  expr.filter (fun e => !(e.hasKey "counter"))

/-- `areRulesEqual` from src/nftables/command.ts: compare family, table and
chain, drop `counter` expressions from both expression arrays, compare
lengths, then compare the filtered arrays by
`JSON.stringify(expr1) === JSON.stringify(expr2)` (equality of the
key-order-preserving JSON trees). -/
def areRulesEqual (rule1 rule2 : NftRule) : Bool :=
  if rule1.family ≠ rule2.family ∨ rule1.table ≠ rule2.table ∨
      rule1.chain ≠ rule2.chain then
    false
  else if (filterCounters rule1.expr).length ≠ (filterCounters rule2.expr).length then
    false
  else
    decide (filterCounters rule1.expr = filterCounters rule2.expr)

theorem areRulesEqual_eq_true_iff (a b : NftRule) :
    areRulesEqual a b = true ↔
      a.family = b.family ∧ a.table = b.table ∧ a.chain = b.chain ∧
        filterCounters a.expr = filterCounters b.expr := by
  unfold areRulesEqual
  split_ifs with h1 h2
  · constructor
    · intro h
      cases h
    · rintro ⟨hf, ht, hc, -⟩
      rcases h1 with h | h | h
      · exact absurd hf h
      · exact absurd ht h
      · exact absurd hc h
  · constructor
    · intro h
      cases h
    · rintro ⟨-, -, -, he⟩
      exact absurd (congrArg List.length he) h2
  · push_neg at h1
    obtain ⟨hf, ht, hc⟩ := h1
    simp [hf, ht, hc]

/-- A `counter` expression `\x7bcounter: \x7bpackets, bytes\x7d\x7d` with the
given numbers, as produced by the tool's JSON output. -/
def counterExprWith (packets bytes : Int) : Json :=
  Json.obj (JsonFields.ofList [("counter",
    Json.obj (JsonFields.ofList [("packets", Json.num packets),
                                 ("bytes", Json.num bytes)]))])

/-- Two expressions that are both `counter` expressions, possibly with
different `packets`/`bytes` numbers. -/
def counterNumbersVariant (x y : Json) : Prop :=
  ∃ p1 b1 p2 b2 : Int, x = counterExprWith p1 b1 ∧ y = counterExprWith p2 b2

theorem filterCounters_cons (x : Json) (l : List Json) :
    filterCounters (x :: l) =
      if x.hasKey "counter" then filterCounters l else x :: filterCounters l := by
  simp only [filterCounters, List.filter_cons]
  by_cases h : x.hasKey "counter" <;> simp [h]

theorem counterExprWith_hasKey (p b : Int) :
    (counterExprWith p b).hasKey "counter" = true := rfl

theorem filterCounters_eq_of_forall2 {e1 e2 : List Json}
    (h : List.Forall₂ (fun x y => x = y ∨ counterNumbersVariant x y) e1 e2) :
    filterCounters e1 = filterCounters e2 := by
  induction h with
  | nil => rfl
  | cons hxy htl ih =>
    rcases hxy with rfl | ⟨p1, b1, p2, b2, rfl, rfl⟩
    · rw [filterCounters_cons, filterCounters_cons, ih]
    · rw [filterCounters_cons, filterCounters_cons,
        counterExprWith_hasKey, counterExprWith_hasKey]
      simpa using ih

/-- C1: for all rules `a` and `b`, if they differ only in the `handle` field
and in the numeric `packets`/`bytes` fields of `counter` sub-expressions of
their `expr` lists, then `areRulesEqual a b` returns `true`. -/
theorem areRulesEqual_ignores_handle_and_counter_numbers (a b : NftRule)
    (hfamily : a.family = b.family) (htable : a.table = b.table)
    (hchain : a.chain = b.chain) (hcomment : a.comment = b.comment)
    (hindex : a.index = b.index)
    (hexpr : List.Forall₂ (fun x y => x = y ∨ counterNumbersVariant x y)
      a.expr b.expr) :
    areRulesEqual a b = true :=
  (areRulesEqual_eq_true_iff a b).mpr
    ⟨hfamily, htable, hchain, filterCounters_eq_of_forall2 hexpr⟩

/-- The JSON value of a `match` expression on `ip daddr == addr`. -/
def matchDaddrExpr (addr : String) : Json :=
  Json.obj (JsonFields.ofList [("match", Json.obj (JsonFields.ofList
    [("op", Json.str "=="),
     ("left", Json.obj (JsonFields.ofList [("payload",
        Json.obj (JsonFields.ofList [("protocol", Json.str "ip"),
                                     ("field", Json.str "daddr")]))])),
     ("right", Json.str addr)]))])

/-- The JSON value of a `dnat` expression to the given address. -/
def dnatExpr (addr : String) : Json :=
  Json.obj (JsonFields.ofList [("dnat",
    Json.obj (JsonFields.ofList [("addr", Json.str addr)]))])

def c1RuleA : NftRule :=
  ⟨"ip", "nat", "PREROUTING", 5,
    [matchDaddrExpr "127.0.0.1", counterExprWith 3 120, dnatExpr "10.0.0.5"],
    none, none⟩

def c1RuleB : NftRule :=
  ⟨"ip", "nat", "PREROUTING", 9,
    [matchDaddrExpr "127.0.0.1", counterExprWith 7 999, dnatExpr "10.0.0.5"],
    none, none⟩

theorem areRulesEqual_ignores_handle_and_counter_numbers_witness :
    areRulesEqual c1RuleA c1RuleB = true :=
  areRulesEqual_ignores_handle_and_counter_numbers c1RuleA c1RuleB
    rfl rfl rfl rfl rfl
    (List.Forall₂.cons (Or.inl rfl)
      (List.Forall₂.cons (Or.inr ⟨3, 120, 7, 999, rfl, rfl⟩)
        (List.Forall₂.cons (Or.inl rfl) List.Forall₂.nil)))

/-- C3: areRulesEqual is symmetric — `areRulesEqual a b = areRulesEqual b a`
for all rules `a` and `b`. -/
theorem areRulesEqual_symm (a b : NftRule) :
    areRulesEqual a b = areRulesEqual b a := by
  by_cases h : areRulesEqual a b = true
  · obtain ⟨hf, ht, hc, he⟩ := (areRulesEqual_eq_true_iff a b).mp h
    rw [h, (areRulesEqual_eq_true_iff b a).mpr ⟨hf.symm, ht.symm, hc.symm, he.symm⟩]
  · have h2 : ¬ areRulesEqual b a = true := by
      intro hb
      obtain ⟨hf, ht, hc, he⟩ := (areRulesEqual_eq_true_iff b a).mp hb
      exact h ((areRulesEqual_eq_true_iff a b).mpr
        ⟨hf.symm, ht.symm, hc.symm, he.symm⟩)
    rw [Bool.not_eq_true] at h h2
    rw [h, h2]

/-- C9: areRulesEqual reads only family, table, chain and the counter-filtered
expression list, so two rules that differ only in their optional `comment`
and/or `index` fields compare equal. -/
theorem areRulesEqual_ignores_comment_and_index (a b : NftRule)
    (hfamily : a.family = b.family) (htable : a.table = b.table)
    (hchain : a.chain = b.chain) (hhandle : a.handle = b.handle)
    (hexpr : a.expr = b.expr) :
    areRulesEqual a b = true :=
  (areRulesEqual_eq_true_iff a b).mpr ⟨hfamily, htable, hchain, by rw [hexpr]⟩

def c9RuleA : NftRule :=
  ⟨"ip", "filter", "INPUT", 2, [dnatExpr "10.0.0.5"], none, none⟩

def c9RuleB : NftRule :=
  ⟨"ip", "filter", "INPUT", 2, [dnatExpr "10.0.0.5"], some "web server", some 1⟩

theorem areRulesEqual_ignores_comment_and_index_witness :
    areRulesEqual c9RuleA c9RuleB = true :=
  areRulesEqual_ignores_comment_and_index c9RuleA c9RuleB rfl rfl rfl rfl rfl

/-- Lexicographic order on character lists, by code point. -/
def charListLe : List Char → List Char → Bool
  | [], _ => true
  | _ :: _, [] => false
  | c1 :: t1, c2 :: t2 =>
    if c1.val < c2.val then true
    else if c2.val < c1.val then false
    else charListLe t1 t2

/-- Lexicographic order on keys, by code point. -/
def keyLe (a b : String) : Bool := charListLe a.data b.data

/-- Insert a key/value pair into object fields sorted by key. -/
def insertField (k : String) (v : Json) : JsonFields → JsonFields
  | .nil => .cons k v .nil
  | .cons k2 v2 tl =>
    if keyLe k k2 then .cons k v (.cons k2 v2 tl) else .cons k2 v2 (insertField k v tl)

/-- Sort object fields by key (insertion sort). -/
def sortFields : JsonFields → JsonFields
  | .nil => .nil
  | .cons k v tl => insertField k v (sortFields tl)

mutual

/-- Modelled from the spec: canonical form for "deep structural equality
(recursive field-by-field)" that is insensitive to "the order in which record
fields were written" — recursively sort the fields of every object by key. -/
def normalizeJson : Json → Json
  | .str s => .str s
  | .num n => .num n
  | .bool b => .bool b
  | .null => .null
  | .arr elems => .arr (normalizeList elems)
  | .obj fields => .obj (sortFields (normalizeFields fields))

def normalizeList : JsonList → JsonList
  | .nil => .nil
  | .cons x xs => .cons (normalizeJson x) (normalizeList xs)

def normalizeFields : JsonFields → JsonFields
  | .nil => .nil
  | .cons k v tl => .cons k (normalizeJson v) (normalizeFields tl)

end

/-- Modelled from the spec: deep structural equality of two JSON values,
recursive field-by-field and regardless of the order in which record fields
were written. -/
def jsonDeepEqUnordered (a b : Json) : Bool :=
  decide (normalizeJson a = normalizeJson b)

/-- Modelled from the spec: pointwise deep structural equality of two
expression sequences (order of the sequences themselves is significant). -/
def exprListDeepEqUnordered (l1 l2 : List Json) : Bool :=
  decide (l1.length = l2.length) &&
    (List.zip l1 l2).all (fun p => jsonDeepEqUnordered p.1 p.2)

def c2RuleA : NftRule :=
  ⟨"ip", "nat", "PREROUTING", 1,
    [Json.obj (JsonFields.ofList [("dnat",
      Json.obj (JsonFields.ofList [("addr", Json.str "10.0.0.5"),
                                   ("family", Json.str "ip")]))])],
    none, none⟩

def c2RuleB : NftRule :=
  ⟨"ip", "nat", "PREROUTING", 2,
    [Json.obj (JsonFields.ofList [("dnat",
      Json.obj (JsonFields.ofList [("family", Json.str "ip"),
                                   ("addr", Json.str "10.0.0.5")]))])],
    none, none⟩

/-- C2 counterexample: two rules with equal family/table/chain, equal filtered
lengths and deep-structurally equal filtered expression sequences (their only
difference is the order in which the fields of the `dnat` record were
written), on which areRulesEqual nevertheless returns false. -/
theorem areRulesEqual_field_order_counterexample :
    c2RuleA.family = c2RuleB.family ∧ c2RuleA.table = c2RuleB.table ∧
    c2RuleA.chain = c2RuleB.chain ∧
    (filterCounters c2RuleA.expr).length = (filterCounters c2RuleB.expr).length ∧
    exprListDeepEqUnordered (filterCounters c2RuleA.expr)
      (filterCounters c2RuleB.expr) = true ∧
    areRulesEqual c2RuleA c2RuleB = false := by
  refine ⟨rfl, rfl, rfl, rfl, ?_, by decide⟩
  have hA : filterCounters c2RuleA.expr = c2RuleA.expr := rfl
  have hB : filterCounters c2RuleB.expr = c2RuleB.expr := rfl
  rw [hA, hB]
  simp only [exprListDeepEqUnordered, jsonDeepEqUnordered, c2RuleA, c2RuleB]
  simp [normalizeJson, normalizeList, normalizeFields, sortFields, insertField,
    JsonFields.ofList, keyLe, charListLe]

/-- C2 amended: for rules with equal family, table and chain and equally long
counter-filtered expression sequences, areRulesEqual returns true iff the two
filtered sequences are equal as insertion-ordered JSON values — the
serialization-based comparison is sensitive to the order in which record
fields were written, not order-insensitive. -/
theorem areRulesEqual_iff_ordered_eq (a b : NftRule)
    (hfamily : a.family = b.family) (htable : a.table = b.table)
    (hchain : a.chain = b.chain)
    (hlen : (filterCounters a.expr).length = (filterCounters b.expr).length) :
    areRulesEqual a b = true ↔ filterCounters a.expr = filterCounters b.expr := by
  rw [areRulesEqual_eq_true_iff]
  simp [hfamily, htable, hchain]

theorem areRulesEqual_iff_ordered_eq_witness :
    areRulesEqual c2RuleA c2RuleB = true ↔
      filterCounters c2RuleA.expr = filterCounters c2RuleB.expr :=
  areRulesEqual_iff_ordered_eq c2RuleA c2RuleB rfl rfl rfl rfl

/-- The root shape `\x7b nftables: Entry[] \x7d` of the JSON emitted by the
list commands; the entries are raw JSON values. -/
structure NftablesList where
  nftables : List Json
deriving DecidableEq, Repr

/-- The type guard `isNftRule` of src/nftables/types.ts: an object with
`family`, `table`, `chain`, `handle` and an array-valued `expr` property. -/
def isNftRule (value : Json) : Bool :=
  value.isObjectLike && value.hasKey "family" && value.hasKey "table" &&
    value.hasKey "chain" && value.hasKey "handle" && value.hasKey "expr" &&
    (match value.lookup "expr" with
     | some e => e.isArr
     | none => false)

/-- The type guard `isNftableEntryRule` of src/nftables/types.ts:
`"rule" in entry && isNftRule(entry.rule)`. -/
def isNftableEntryRule (entry : Json) : Bool :=
  entry.hasKey "rule" &&
    (match entry.lookup "rule" with
     | some r => isNftRule r
     | none => false)

/-- The client-side step of `getRules` in src/nftables/command.ts applied to
the fetched table listing:
`createSuccess(result.nftables.filter((entry) => isNftRule(entry)))`.
The guard is applied to the wrapper entry itself and the entries are not
unwrapped. -/
def getRulesStep (listing : NftablesList) : Result (List Json) :=
  Result.success (listing.nftables.filter (fun entry => isNftRule entry))

/-- The client-side step of `getRulesFromChain` in src/nftables/command.ts
applied to the fetched chain listing:
`result.nftables.filter((entry) => "rule" in entry && isNftableEntryRule(entry)).map((entry) => entry.rule)`. -/
def getRulesFromChainStep (listing : NftablesList) : Result (List Json) :=
  Result.success
    ((listing.nftables.filter
        (fun entry => entry.hasKey "rule" && isNftableEntryRule entry)).map
      (fun entry => (entry.lookup "rule").getD Json.null))

def c4RuleJson : Json :=
  Json.obj (JsonFields.ofList
    [("family", Json.str "ip"), ("table", Json.str "nat"),
     ("chain", Json.str "PREROUTING"), ("handle", Json.num 4),
     ("expr", Json.arr (JsonList.ofList [dnatExpr "10.0.0.5"]))])

def c4MetaEntry : Json :=
  Json.obj (JsonFields.ofList [("metainfo",
    Json.obj (JsonFields.ofList
      [("version", Json.str "1.0.2"),
       ("release_name", Json.str "Lester Gooch"),
       ("json_schema_version", Json.num 1)]))])

def c4TableEntry : Json :=
  Json.obj (JsonFields.ofList [("table",
    Json.obj (JsonFields.ofList
      [("family", Json.str "ip"), ("name", Json.str "nat"),
       ("handle", Json.num 1)]))])

def c4Listing : NftablesList :=
  ⟨[c4MetaEntry, c4TableEntry, Json.obj (JsonFields.ofList [("rule", c4RuleJson)])]⟩

/-- C4 (code bug): on a listing holding a metainfo entry, a table entry and a
well-formed rule-tagged entry, `getRules`' filtering step returns the empty
list instead of the rule record: `isNftRule` is applied to the single-key
wrapper entry `\x7brule: ...\x7d`, which has no `family`/`table`/`chain`/
`handle`/`expr` properties of its own, so every rule-tagged entry is dropped
and nothing is ever unwrapped — contradicting the function's own
documentation ("Retrieves all rules from all nftables tables") and declared
`NftRule[]` payload. -/
theorem getRules_drops_rule_tagged_entries :
    isNftRule c4RuleJson = true ∧
    c4Listing.nftables.any (fun e => e.hasKey "rule") = true ∧
    getRulesStep c4Listing = Result.success [] := by decide

def c10RuleJson : Json :=
  Json.obj (JsonFields.ofList
    [("family", Json.str "ip"), ("table", Json.str "nat"),
     ("chain", Json.str "PREROUTING"), ("handle", Json.num 7),
     ("expr", Json.arr (JsonList.ofList [matchDaddrExpr "127.0.0.1"]))])

def c10MalformedEntry : Json :=
  Json.obj (JsonFields.ofList [("rule",
    Json.obj (JsonFields.ofList
      [("family", Json.str "ip"), ("table", Json.str "nat"),
       ("chain", Json.str "PREROUTING")]))])

def c10ChainEntry : Json :=
  Json.obj (JsonFields.ofList [("chain",
    Json.obj (JsonFields.ofList
      [("family", Json.str "ip"), ("table", Json.str "nat"),
       ("name", Json.str "PREROUTING"), ("handle", Json.num 2)]))])

def c10Listing : NftablesList :=
  ⟨[c10ChainEntry, c10MalformedEntry,
    Json.obj (JsonFields.ofList [("rule", c10RuleJson)])]⟩

/-- C10: for every chain listing, `getRulesFromChain`'s client-side step
succeeds with exactly the unwrapped rule values of the entries that carry the
`rule` tag and whose rule value passes the rule shape guard (an object with
`family`, `table`, `chain`, `handle` and an array-valued `expr`); a
rule-tagged entry whose value lacks any of these is silently dropped rather
than causing a failure, as the concrete listing with a malformed entry
shows. -/
theorem getRulesFromChain_drops_malformed_entries :
    (∀ listing : NftablesList,
      getRulesFromChainStep listing =
        Result.success
          ((listing.nftables.filter (fun entry =>
              match entry.lookup "rule" with
              | some r =>
                r.isObjectLike && r.hasKey "family" && r.hasKey "table" &&
                  r.hasKey "chain" && r.hasKey "handle" && r.hasKey "expr" &&
                  (match r.lookup "expr" with
                   | some e => e.isArr
                   | none => false)
              | none => false)).map
            (fun entry => (entry.lookup "rule").getD Json.null))) ∧
    getRulesFromChainStep c10Listing = Result.success [c10RuleJson] := by
  constructor
  · intro listing
    unfold getRulesFromChainStep
    congr 1
    congr 1
    apply List.filter_congr
    intro e _
    rw [isNftableEntryRule]
    cases hl : e.lookup "rule" with
    | none =>
      have hk : e.hasKey "rule" = false := by
        rw [Json.hasKey_eq_lookup_isSome, hl]
        rfl
      simp [hk]
    | some r =>
      have hk : e.hasKey "rule" = true := by
        rw [Json.hasKey_eq_lookup_isSome, hl]
        rfl
      simp [hk, hl, isNftRule]
  · decide

/-- The `matchingRules` list of `deleteAllMatchingRulesFromChain`:
`result.filter((entry) => areRulesEqual(entry, rule))` over the rules fetched
from the chain. -/
def matchingRules (rule : NftRule) (fetched : List NftRule) : List NftRule :=
  fetched.filter (fun entry => areRulesEqual entry rule)

/-- The processing step of `deleteAllMatchingRulesFromChain` on the fetched
chain rules, with the per-handle delete outcomes supplied by the external
executor: fail with "No matching rules found" when nothing matches, otherwise
delete every matching rule by handle and return the first failure found while
scanning the per-delete results, else success. -/
def deleteAllMatchingResult (rule : NftRule) (fetched : List NftRule)
    (deleteOutcome : Int → Result Unit) : Result Unit :=
  if (matchingRules rule fetched).length = 0 then
    Result.fail "No matching rules found"
  else
    match ((matchingRules rule fetched).map
        (fun entry => deleteOutcome entry.handle)).find?
        (fun r => !(isSuccess r)) with
    | some failed => failed
    | none => Result.success ()

/-- The delete-by-handle invocations `deleteAllMatchingRulesFromChain` issues:
none when nothing matches (the function fails before the parallel fan-out),
otherwise one per matching rule's handle. -/
def issuedDeleteHandles (rule : NftRule) (fetched : List NftRule) : List Int :=
  if (matchingRules rule fetched).length = 0 then []
  else (matchingRules rule fetched).map (fun entry => entry.handle)

/-- C5: with zero matching rules, deleteAllMatchingRulesFromChain returns the
failure "No matching rules found" and issues no delete invocations; with
N ≥ 1 matching rules it issues exactly one delete-by-handle invocation per
matching rule's handle, returns success iff all of them succeed, and
otherwise returns the first failure found while scanning the per-delete
results. -/
theorem deleteAllMatching_zero_and_fanout (rule : NftRule)
    (fetched : List NftRule) (deleteOutcome : Int → Result Unit) :
    issuedDeleteHandles rule fetched =
      (matchingRules rule fetched).map (fun e => e.handle) ∧
    (matchingRules rule fetched = [] →
      deleteAllMatchingResult rule fetched deleteOutcome =
          Result.fail "No matching rules found" ∧
        issuedDeleteHandles rule fetched = []) ∧
    (matchingRules rule fetched ≠ [] →
      (deleteAllMatchingResult rule fetched deleteOutcome = Result.success () ↔
        ∀ e ∈ matchingRules rule fetched,
          isSuccess (deleteOutcome e.handle) = true) ∧
      (∀ f, ((matchingRules rule fetched).map
            (fun e => deleteOutcome e.handle)).find?
            (fun r => !(isSuccess r)) = some f →
        deleteAllMatchingResult rule fetched deleteOutcome = f)) := by
  refine ⟨?_, ?_, ?_⟩
  · by_cases h : (matchingRules rule fetched).length = 0
    · rw [issuedDeleteHandles, if_pos h, List.length_eq_zero.mp h]
      rfl
    · rw [issuedDeleteHandles, if_neg h]
  · intro h
    have hlen : (matchingRules rule fetched).length = 0 := by rw [h]; rfl
    exact ⟨by rw [deleteAllMatchingResult, if_pos hlen],
      by rw [issuedDeleteHandles, if_pos hlen]⟩
  · intro h
    have hlen : ¬ (matchingRules rule fetched).length = 0 := by
      simpa [List.length_eq_zero] using h
    constructor
    · rw [deleteAllMatchingResult, if_neg hlen]
      cases hf : ((matchingRules rule fetched).map
          (fun entry => deleteOutcome entry.handle)).find?
          (fun r => !(isSuccess r)) with
      | none =>
        simp only [List.find?_eq_none] at hf
        constructor
        · intro _ e he
          have := hf (deleteOutcome e.handle) (List.mem_map_of_mem _ he)
          simpa using this
        · intro _
          rfl
      | some f =>
        have hp : (!(isSuccess f)) = true :=
          List.find?_some (p := fun r => !(isSuccess r)) hf
        have hmem : f ∈ (matchingRules rule fetched).map
            (fun entry => deleteOutcome entry.handle) :=
          List.mem_of_find?_eq_some (p := fun r => !(isSuccess r)) hf
        obtain ⟨e, he, hef⟩ := List.mem_map.mp hmem
        have hf2 : isSuccess f = false := by simpa using hp
        show f = Result.success () ↔ _
        constructor
        · intro hsucc
          rw [hsucc] at hf2
          simp [isSuccess] at hf2
        · intro hall
          have h2 := hall e he
          rw [hef] at h2
          rw [h2] at hf2
          cases hf2
    · intro f hf
      rw [deleteAllMatchingResult, if_neg hlen, hf]

def c5Spec : NftRule :=
  ⟨"ip", "nat", "PREROUTING", 99, [matchDaddrExpr "127.0.0.1"], none, none⟩

def c5Rule1 : NftRule :=
  ⟨"ip", "nat", "PREROUTING", 11, [matchDaddrExpr "127.0.0.1"], none, none⟩

def c5Rule2 : NftRule :=
  ⟨"ip", "nat", "PREROUTING", 12,
    [matchDaddrExpr "127.0.0.1", counterExprWith 1 40], none, none⟩

def c5Other : NftRule :=
  ⟨"ip", "nat", "OUTPUT", 13, [matchDaddrExpr "127.0.0.1"], none, none⟩

def c5DeleteOk : Int → Result Unit := fun _ => Result.success ()

def c5DeleteFail12 : Int → Result Unit := fun h =>
  if h = 12 then Result.fail "delete failed" else Result.success ()

theorem deleteAllMatching_zero_and_fanout_witness :
    deleteAllMatchingResult c5Spec [c5Other] c5DeleteOk =
        Result.fail "No matching rules found" ∧
      issuedDeleteHandles c5Spec [c5Other] = [] ∧
      issuedDeleteHandles c5Spec [c5Rule1, c5Other, c5Rule2] = [11, 12] ∧
      deleteAllMatchingResult c5Spec [c5Rule1, c5Other, c5Rule2] c5DeleteOk =
        Result.success () ∧
      deleteAllMatchingResult c5Spec [c5Rule1, c5Other, c5Rule2] c5DeleteFail12 =
        Result.fail "delete failed" :=
  ⟨((deleteAllMatching_zero_and_fanout c5Spec [c5Other] c5DeleteOk).2.1
      (by decide)).1,
   ((deleteAllMatching_zero_and_fanout c5Spec [c5Other] c5DeleteOk).2.1
      (by decide)).2,
   by decide,
   ((deleteAllMatching_zero_and_fanout c5Spec [c5Rule1, c5Other, c5Rule2]
      c5DeleteOk).2.2 (by decide)).1.mpr (by decide),
   ((deleteAllMatching_zero_and_fanout c5Spec [c5Rule1, c5Other, c5Rule2]
      c5DeleteFail12).2.2 (by decide)).2 (Result.fail "delete failed")
      (by decide)⟩

/-- An external command invocation: program and exact argument vector. -/
structure Call where
  program : String
  args : List String
deriving DecidableEq, Repr

/-- The invocation built by `createNfTable`:
`sudo nft -j add table <family> <table>`. -/
def createNfTableCall (family table : String) : Call :=
  ⟨"sudo", ["nft", "-j", "add", "table", family, table]⟩

/-- JavaScript `chain.toUpperCase()` on the chain name (ASCII). -/
def toUpperCase (s : String) : String := String.mk (s.data.map Char.toUpper)

/-- The invocation built by `createNfTableChain`:
`sudo nft -j add chain <family> <table> <CHAIN_UPPERCASE>
\x7b type <type> hook <hook> priority <priority>; policy accept; \x7d`. -/
def createNfTableChainCall (family table chain chainType hook : String)
    (priority : Int) : Call :=
  ⟨"sudo", ["nft", "-j", "add", "chain", family, table, toUpperCase chain,
    "\x7b type " ++ chainType ++ " hook " ++ hook ++ " priority " ++
      toString priority ++ "; policy accept; \x7d"]⟩

/-- Modelled from the spec: the Result Pipeline collaborator
(`rpipeAsync` of `@joyautomation/dark-matter`) — "sequential composition of
fallible asynchronous steps; short-circuits on first failure" — applied to a
list of external calls.  Returns the pipeline result together with the trace
of calls actually issued, in order. -/
def runSeq (execute : Call → Result String) : List Call → Result Unit × List Call
  | [] => (Result.success (), [])
  | c :: cs =>
    match execute c with
    | Result.fail e => (Result.fail e, [c])
    | Result.success _ =>
      ((runSeq execute cs).1, c :: (runSeq execute cs).2)

/-- The five steps of `createNatNfTable` in src/nftables/command.ts, in
source order. -/
def natTableCalls : List Call :=
  [createNfTableCall "ip" "nat",
   createNfTableChainCall "ip" "nat" "PREROUTING" "nat" "prerouting" (-100),
   createNfTableChainCall "ip" "nat" "INPUT" "nat" "input" 100,
   createNfTableChainCall "ip" "nat" "OUTPUT" "nat" "output" (-100),
   createNfTableChainCall "ip" "nat" "POSTROUTING" "nat" "postrouting" 100]

/-- `createNatNfTable`: the sequential short-circuiting pipeline over the
five calls. -/
def createNatNfTable (execute : Call → Result String) : Result Unit × List Call :=
  runSeq execute natTableCalls

/-- C6: createNatNfTable issues exactly five external calls in order — create
table ip/nat, then create chains PREROUTING (type nat, hook prerouting,
priority -100), INPUT (nat, input, 100), OUTPUT (nat, output, -100) and
POSTROUTING (nat, postrouting, 100); when the second call fails, the third
through fifth are never issued and the pipeline returns that failure. -/
theorem createNatNfTable_five_calls (execute : Call → Result String) :
    natTableCalls =
      [⟨"sudo", ["nft", "-j", "add", "table", "ip", "nat"]⟩,
       ⟨"sudo", ["nft", "-j", "add", "chain", "ip", "nat", "PREROUTING",
         "\x7b type nat hook prerouting priority -100; policy accept; \x7d"]⟩,
       ⟨"sudo", ["nft", "-j", "add", "chain", "ip", "nat", "INPUT",
         "\x7b type nat hook input priority 100; policy accept; \x7d"]⟩,
       ⟨"sudo", ["nft", "-j", "add", "chain", "ip", "nat", "OUTPUT",
         "\x7b type nat hook output priority -100; policy accept; \x7d"]⟩,
       ⟨"sudo", ["nft", "-j", "add", "chain", "ip", "nat", "POSTROUTING",
         "\x7b type nat hook postrouting priority 100; policy accept; \x7d"]⟩] ∧
    ((∀ c ∈ natTableCalls, isSuccess (execute c) = true) →
      createNatNfTable execute = (Result.success (), natTableCalls)) ∧
    (∀ e, isSuccess (execute (createNfTableCall "ip" "nat")) = true →
      execute (createNfTableChainCall "ip" "nat" "PREROUTING" "nat"
          "prerouting" (-100)) = Result.fail e →
      createNatNfTable execute =
        (Result.fail e,
         [createNfTableCall "ip" "nat",
          createNfTableChainCall "ip" "nat" "PREROUTING" "nat"
            "prerouting" (-100)])) := by
  refine ⟨by decide, ?_, ?_⟩
  · intro h
    obtain ⟨s1, h1⟩ := (isSuccess_eq_true_iff _).mp
      (h (createNfTableCall "ip" "nat") (by simp [natTableCalls]))
    obtain ⟨s2, h2⟩ := (isSuccess_eq_true_iff _).mp
      (h (createNfTableChainCall "ip" "nat" "PREROUTING" "nat"
        "prerouting" (-100)) (by simp [natTableCalls]))
    obtain ⟨s3, h3⟩ := (isSuccess_eq_true_iff _).mp
      (h (createNfTableChainCall "ip" "nat" "INPUT" "nat" "input" 100)
        (by simp [natTableCalls]))
    obtain ⟨s4, h4⟩ := (isSuccess_eq_true_iff _).mp
      (h (createNfTableChainCall "ip" "nat" "OUTPUT" "nat" "output" (-100))
        (by simp [natTableCalls]))
    obtain ⟨s5, h5⟩ := (isSuccess_eq_true_iff _).mp
      (h (createNfTableChainCall "ip" "nat" "POSTROUTING" "nat"
        "postrouting" 100) (by simp [natTableCalls]))
    simp [createNatNfTable, natTableCalls, runSeq, h1, h2, h3, h4, h5]
  · intro e hs hf
    obtain ⟨s1, h1⟩ := (isSuccess_eq_true_iff _).mp hs
    rw [createNatNfTable, natTableCalls]
    rw [runSeq, h1, runSeq, hf]

def execAllOk : Call → Result String := fun _ => Result.success ""

def execFailSecond : Call → Result String := fun c =>
  if c = createNfTableChainCall "ip" "nat" "PREROUTING" "nat" "prerouting" (-100)
  then Result.fail "chain create failed"
  else Result.success ""

theorem createNatNfTable_five_calls_witness :
    createNatNfTable execAllOk = (Result.success (), natTableCalls) ∧
    createNatNfTable execFailSecond =
      (Result.fail "chain create failed",
       [createNfTableCall "ip" "nat",
        createNfTableChainCall "ip" "nat" "PREROUTING" "nat"
          "prerouting" (-100)]) :=
  ⟨(createNatNfTable_five_calls execAllOk).2.1 (by decide),
   (createNatNfTable_five_calls execFailSecond).2.2 "chain create failed"
     (by decide) (by decide)⟩

/-- The per-rule scan of `getDNatRuleFromChain` for condition (a): a `match`
expression whose left operand is a payload read of protocol "ip" field
"daddr" and whose right operand equals the source address. -/
def isDaddrSourceMatch (sourceAddr : String) (e : Json) : Bool :=
  e.hasKey "match" &&
    (match e.lookup "match" with
     | some m =>
       (match m.lookup "left" with
        | some l =>
          l.hasKey "payload" &&
            decide (((l.lookup "payload").bind
              (fun p => p.lookup "protocol")) = some (Json.str "ip")) &&
            decide (((l.lookup "payload").bind
              (fun p => p.lookup "field")) = some (Json.str "daddr")) &&
            decide ((m.lookup "right") = some (Json.str sourceAddr))
        | none => false)
     | none => false)

/-- The per-rule scan of `getDNatRuleFromChain` for condition (b): a `dnat`
expression whose `addr` equals the destination address
(`"dnat" in expr && expr.dnat?.addr === destAddr`). -/
def isDnatTo (destAddr : String) (e : Json) : Bool :=
  e.hasKey "dnat" &&
    decide (((e.lookup "dnat").bind (fun d => d.lookup "addr")) =
      some (Json.str destAddr))

/-- The predicate `getDNatRuleFromChain` evaluates per fetched rule: its
expression list sets both flags somewhere during the `forEach` scan. -/
def isDnatRuleFor (sourceAddr destAddr : String) (entry : NftRule) : Bool :=
  entry.expr.any (fun e => isDaddrSourceMatch sourceAddr e) &&
    entry.expr.any (fun e => isDnatTo destAddr e)

/-- The processing step of `getDNatRuleFromChain` on the fetched chain rules:
`createSuccess(result.find((entry) => ...))` — always a success, holding the
first rule that satisfies both conditions, or nothing. -/
def getDNatRuleStep (sourceAddr destAddr : String) (fetched : List NftRule) :
    Result (Option NftRule) :=
  Result.success (fetched.find? (fun entry => isDnatRuleFor sourceAddr destAddr entry))

/-- C7: getDNatRuleFromChain returns success holding the first listed rule
whose expression list contains, anywhere and in any relative order, both a
match of payload ip daddr against the source address and a dnat expression
whose addr equals the destination address; when no rule satisfies both it
returns success with an empty value, not a failure. -/
theorem getDNatRule_first_match (src dst : String) (fetched : List NftRule) :
    ((∀ r ∈ fetched, isDnatRuleFor src dst r = false) →
      getDNatRuleStep src dst fetched = Result.success none) ∧
    (∀ l r rest, fetched = l ++ r :: rest →
      (∀ x ∈ l, isDnatRuleFor src dst x = false) →
      isDnatRuleFor src dst r = true →
      getDNatRuleStep src dst fetched = Result.success (some r)) ∧
    (∀ r : NftRule, isDnatRuleFor src dst r = true ↔
      ((∃ e ∈ r.expr, isDaddrSourceMatch src e = true) ∧
       (∃ e ∈ r.expr, isDnatTo dst e = true))) := by
  refine ⟨?_, ?_, ?_⟩
  · intro h
    rw [getDNatRuleStep]
    rw [List.find?_eq_none.mpr (fun x hx => by rw [h x hx]; exact Bool.false_ne_true)]
  · intro l r rest hdecomp hl hr
    rw [getDNatRuleStep, hdecomp, List.find?_append]
    rw [List.find?_eq_none.mpr (fun x hx => by rw [hl x hx]; exact Bool.false_ne_true)]
    rw [List.find?_cons_of_pos _ hr]
    rfl
  · intro r
    rw [isDnatRuleFor, Bool.and_eq_true, List.any_eq_true, List.any_eq_true]

def c7RuleNoDnat : NftRule :=
  ⟨"ip", "nat", "PREROUTING", 21, [matchDaddrExpr "192.168.1.100"], none, none⟩

def c7RuleHit : NftRule :=
  ⟨"ip", "nat", "PREROUTING", 22,
    [dnatExpr "10.0.0.5", counterExprWith 0 0, matchDaddrExpr "192.168.1.100"],
    none, none⟩

theorem getDNatRule_first_match_witness :
    getDNatRuleStep "192.168.1.100" "10.0.0.5" [c7RuleNoDnat] =
        Result.success none ∧
      getDNatRuleStep "192.168.1.100" "10.0.0.5" [c7RuleNoDnat, c7RuleHit] =
        Result.success (some c7RuleHit) ∧
      isDnatRuleFor "192.168.1.100" "10.0.0.5" c7RuleHit = true :=
  ⟨(getDNatRule_first_match "192.168.1.100" "10.0.0.5" [c7RuleNoDnat]).1
     (by decide),
   (getDNatRule_first_match "192.168.1.100" "10.0.0.5"
       [c7RuleNoDnat, c7RuleHit]).2.1 [c7RuleNoDnat] c7RuleHit [] rfl
     (by decide) (by decide),
   ((getDNatRule_first_match "192.168.1.100" "10.0.0.5" []).2.2 c7RuleHit).mpr
     (by decide)⟩

/-- Modelled from the spec: the observable outcome of one `Deno.Command`
subprocess execution — either the execution threw an exception, or the
process completed with an exit code and captured (decoded) standard output
and standard error text. -/
inductive ProcessOutcome where
  | threw (error : String)
  | completed (code : Int) (stdout : String) (stderr : String)
deriving DecidableEq, Repr

/-- `runCommand` from src/command.ts, as a function of the subprocess
outcome, parameterized by the external `createErrorString` formatter of
`@joyautomation/dark-matter`: a thrown exception is caught and converted to
a failure; a completed process whose error stream is non-empty is a failure
built from that text, regardless of the exit code; otherwise the decoded
standard output is returned as a success. -/
def runCommand (createErrorString : String → String) :
    ProcessOutcome → Result String
  | .threw e => Result.fail (createErrorString e)
  | .completed _ stdout stderr =>
    if stderr.length > 0 then Result.fail (createErrorString stderr)
    else Result.success stdout

/-- C8: runCommand never lets an exception escape — every outcome maps to a
success holding the decoded standard output or to a failure; non-empty
error-stream text forces a failure derived from it regardless of the exit
code, and a thrown execution exception is caught and converted to a
failure. -/
theorem runCommand_never_throws (ces : String → String) (o : ProcessOutcome) :
    ((∃ out, runCommand ces o = Result.success out) ∨
      (∃ reason, runCommand ces o = Result.fail reason)) ∧
    (∀ e, o = ProcessOutcome.threw e →
      runCommand ces o = Result.fail (ces e)) ∧
    (∀ code stdout stderr, o = ProcessOutcome.completed code stdout stderr →
      stderr.length > 0 → runCommand ces o = Result.fail (ces stderr)) ∧
    (∀ code stdout, o = ProcessOutcome.completed code stdout "" →
      runCommand ces o = Result.success stdout) := by
  refine ⟨?_, ?_, ?_, ?_⟩
  · cases o with
    | threw e => exact Or.inr ⟨ces e, rfl⟩
    | completed code stdout stderr =>
      by_cases h : stderr.length > 0
      · exact Or.inr ⟨ces stderr, by rw [runCommand, if_pos h]⟩
      · exact Or.inl ⟨stdout, by rw [runCommand, if_neg h]⟩
  · rintro e rfl
    rfl
  · rintro code stdout stderr rfl h
    rw [runCommand, if_pos h]
  · rintro code stdout rfl
    rfl

theorem runCommand_never_throws_witness :
    runCommand id (ProcessOutcome.threw "spawn failed") =
        Result.fail "spawn failed" ∧
      runCommand id (ProcessOutcome.completed 0 "out" "permission denied") =
        Result.fail "permission denied" ∧
      runCommand id (ProcessOutcome.completed 0 "listing" "") =
        Result.success "listing" :=
  ⟨(runCommand_never_throws id (ProcessOutcome.threw "spawn failed")).2.1
     "spawn failed" rfl,
   (runCommand_never_throws id
       (ProcessOutcome.completed 0 "out" "permission denied")).2.2.1
     0 "out" "permission denied" rfl (by decide),
   (runCommand_never_throws id
       (ProcessOutcome.completed 0 "listing" "")).2.2.2 0 "listing" rfl⟩

end Statocyst
